import Mathlib

/-!
Verification of the libreeye surveillance recorder against its
natural-language specification.

The Python sources are shallowly embedded: each Python function that a
claim depends on is translated into an executable Lean definition over
explicit state records; machine integers become `Int`/`Nat`, wall-clock
instants become integer seconds, fallible calls return an `Option PyExc`
component describing the exception raised (if any), and side effects are
collected into explicit effect lists.
-/

/-! ### errno constants (Linux values, as used by the Python `errno` module) -/

def errnoEio : Nat := 5

def errnoEhostunreach : Nat := 113

def errnoEconnreset : Nat := 104

def errnoEconnaborted : Nat := 103

def errnoEnoent : Nat := 2

def errnoEnetunreach : Nat := 101

def errnoEtimedout : Nat := 110

/-- Python exceptions that the embedded code can raise. -/
inductive PyExc where
  | attributeError
  | runtimeError
  | nameError
  | indexError
  | osError (en : Nat) (msg : List Char)
  | connectionError (en : Nat) (msg : List Char)
  | fileNotFoundError (en : Nat) (msg : List Char)
  | permissionError (en : Nat) (msg : List Char)
  | clientError (status : Nat)
  deriving DecidableEq, Repr

/-! ### Control-socket message framing (src/src/libreeye/daemon/socket_actions.py)

`write_msg` sends `f'{message}\0'.encode('ascii')`; `read_msg` accumulates
`recv` chunks until the last accumulated byte is the null terminator, then
ASCII-decodes and strips the final character.  Byte strings are `List Nat`,
the socket's `recv` sequence is a list of nonempty chunks. -/

def asciiEncode (s : List Char) : Option (List Nat) :=
  if s.all (fun c => c.toNat < 128) then some (s.map Char.toNat) else none

def asciiDecode (bs : List Nat) : Option (List Char) :=
  if bs.all (fun b => b < 128) then some (bs.map Char.ofNat) else none

/-- `write_msg`: transmit the ASCII encoding of `message` followed by the
null terminator (the encoding of `f'{message}\0'`). -/
def write_msg (message : List Char) : Option (List Nat) :=
  asciiEncode (message ++ ['\x00'])

/-- The accumulation loop of `read_msg`: keep appending `recv` chunks while
the answer is empty or its last byte is not the terminator.  `none` models
blocking forever on an exhausted stream. -/
def read_msg_loop (chunks : List (List Nat)) (answer : List Nat) : Option (List Nat) :=
  if answer.getLast? = some 0 then some answer
  else
    match chunks with
    | [] => none
    | c :: cs => read_msg_loop cs (answer ++ c)

/-- `read_msg`: accumulate chunks, ASCII-decode, drop the trailing `'\0'`. -/
def read_msg (chunks : List (List Nat)) : Option (List Char) :=
  (read_msg_loop chunks []).bind (fun bs => (asciiDecode bs).map (fun s => s.dropLast))

theorem read_msg_loop_spec (M : List Nat) (hM : ∀ b ∈ M, b ≠ 0) :
    ∀ (chunks : List (List Nat)) (answer : List Nat), (∀ c ∈ chunks, c ≠ []) →
      answer ++ chunks.flatten = M ++ [0] → read_msg_loop chunks answer = some (M ++ [0]) := by
  intro chunks
  induction chunks with
  | nil =>
    intro answer _ heq
    simp only [List.flatten_nil, List.append_nil] at heq
    subst heq
    simp [read_msg_loop]
  | cons c cs ih =>
    intro answer hne heq
    simp only [List.flatten_cons] at heq
    have hcne : c ≠ [] := hne c (by simp)
    -- `answer` is a proper prefix of `M ++ [0]`, hence a prefix of `M`
    have hpre : answer <+: M := by
      rcases List.append_eq_append_iff.mp heq with ⟨a, ha, _⟩ | ⟨d, hd1, hd2⟩
      · exact ⟨a, ha.symm⟩
      · match d, hd2 with
        | [], _ => simp only [List.append_nil] at hd1; exact hd1 ▸ List.prefix_refl M
        | x :: xs, hd2 =>
          exfalso
          rw [List.cons_append] at hd2
          have h2 := (List.cons.injEq _ _ _ _).mp hd2
          rcases List.append_eq_nil.mp h2.2.symm with ⟨-, h4⟩
          rcases List.append_eq_nil.mp h4 with ⟨h5, -⟩
          exact hcne h5
    have hlast : ¬ answer.getLast? = some 0 := by
      intro hcontra
      have hAne : answer ≠ [] := by
        intro h; rw [h] at hcontra; simp at hcontra
      rw [List.getLast?_eq_getLast _ hAne, Option.some.injEq] at hcontra
      exact hM _ (hpre.subset (List.getLast_mem hAne)) hcontra
    rw [read_msg_loop, if_neg hlast]
    exact ih (answer ++ c) (fun x hx => hne x (by simp [hx])) (by rw [List.append_assoc]; exact heq)

/-- Claim C10: control-socket message framing round-trips.  For every ASCII
string `m` containing no null byte, `write_msg` transmits exactly the bytes
of `m` followed by a single terminating null byte, and `read_msg` applied to
that transmitted byte stream (under any chunking into nonempty `recv`
results) returns `m` unchanged. -/
theorem write_read_msg_roundtrip (m : List Char) (chunks : List (List Nat))
    (hm : ∀ c ∈ m, c.toNat < 128 ∧ c.toNat ≠ 0)
    (hchunks : chunks.flatten = m.map Char.toNat ++ [0])
    (hne : ∀ c ∈ chunks, c ≠ []) :
    write_msg m = some (m.map Char.toNat ++ [0]) ∧ read_msg chunks = some m := by
  constructor
  · unfold write_msg asciiEncode
    rw [if_pos]
    · simp
    · simp only [List.all_append, List.all_cons, List.all_nil, Bool.and_true, Bool.and_eq_true,
        List.all_eq_true, decide_eq_true_eq]
      exact ⟨fun c hc => (hm c hc).1, by simp [Char.toNat]⟩
  · have hM : ∀ b ∈ m.map Char.toNat, b ≠ 0 := by
      intro b hb
      rcases List.mem_map.mp hb with ⟨c, hc, rfl⟩
      exact (hm c hc).2
    have hloop := read_msg_loop_spec (m.map Char.toNat) hM chunks [] hne (by simpa using hchunks)
    have hdec : asciiDecode (m.map Char.toNat ++ [0]) = some (m ++ ['\x00']) := by
      unfold asciiDecode
      rw [if_pos]
      · rw [Option.some.injEq, List.map_append, List.map_map]
        congr 1
        simp [Function.comp_def, Char.ofNat_toNat]
      · simp only [List.all_append, List.all_cons, List.all_nil, Bool.and_true, Bool.and_eq_true,
          List.all_eq_true, decide_eq_true_eq]
        refine ⟨fun b hb => ?_, by norm_num⟩
        rcases List.mem_map.mp hb with ⟨c, hc, rfl⟩
        exact (hm c hc).1
    unfold read_msg
    rw [hloop, Option.some_bind, hdec]
    simp

/-- Witness for claim C10 at the concrete message `"ok"` chunked as
`[[111], [107, 0]]`. -/
theorem write_read_msg_roundtrip_witness :
    write_msg ("ok".toList) = some (("ok".toList).map Char.toNat ++ [0]) ∧
      read_msg [[111], [107, 0]] = some ("ok".toList) :=
  write_read_msg_roundtrip ("ok".toList) [[111], [107, 0]]
    (by decide) (by decide) (by decide)

/-! ### Retention sweeps (src/src/libreeye/storage/local.py, storage/youtube.py, src/gc.py)

Files and broadcasts are modelled as `(path, mtime)` pairs with integer
epoch-second timestamps; `datetime.today() - timedelta(days=d)` becomes
`today - d * 86400`. -/

/-- `LocalStorage.list_expired`: walk the tree and yield every file whose
mtime satisfies `os.path.getmtime(fullpath) <= due_date`. -/
def localListExpired (days today : Int) (files : List (List Char × Int)) : List (List Char) :=
  let due_date := today - days * 86400
  (files.filter (fun f => f.2 ≤ due_date)).map (fun f => f.1)

/-- The sweep loop of `gc.py`: for each file, `if f.getmtime() <= due_date:
f.remove()`; returns the removed paths. -/
def gcSweepRemoved (days today : Int) (files : List (List Char × Int)) : List (List Char) :=
  let due_date := today - days * 86400
  (files.filter (fun f => f.2 ≤ due_date)).map (fun f => f.1)

/-- The files remaining after a local sweep (`LocalItem.remove` deletes the
yielded path). -/
def sweepRemaining (days today : Int) (files : List (List Char × Int)) : List (List Char × Int) :=
  files.filter (fun f => ! decide (f.2 ≤ today - days * 86400))

/-- `YoutubeStorage.list_expired`: short-circuit on `self._expiration <= 0`,
otherwise page through completed broadcasts and collect those with
`actualEndTime <= utcnow - expiration days`.  Pages are given as a list of
result pages of `(title, actualEndTime)` pairs. -/
def youtubeListExpired (expiration nowUtc : Int)
    (pages : List (List (List Char × Int))) : List (List Char) :=
  if expiration ≤ 0 then []
  else
    let due_date := nowUtc - expiration * 86400
    (pages.flatten.filter (fun b => b.2 ≤ due_date)).map (fun b => b.1)

theorem mem_localListExpired_iff (days today : Int) (files : List (List Char × Int))
    (p : List Char) :
    p ∈ localListExpired days today files ↔
      ∃ m : Int, (p, m) ∈ files ∧ m ≤ today - days * 86400 := by
  unfold localListExpired
  simp only [List.mem_map, List.mem_filter, decide_eq_true_eq]
  constructor
  · rintro ⟨⟨q, m⟩, ⟨hmem, hle⟩, rfl⟩
    exact ⟨m, hmem, hle⟩
  · rintro ⟨m, hmem, hle⟩
    exact ⟨(p, m), ⟨hmem, hle⟩, rfl⟩

/-- Counterexample to claim C3: a file whose mtime equals the retention
threshold exactly IS yielded (and hence removed) by the sweep, because the
code compares with `<=`, not `<`. -/
theorem retention_equal_mtime_removed :
    localListExpired 1 172800 [(("f".toList), 86400)] = [("f".toList)] ∧
      ¬ ((86400 : Int) < 172800 - 1 * 86400) := by
  constructor
  · rfl
  · decide

/-- Claim C3 (amended): a retention sweep (local tree walk or
garbage-collector run) removes an item exactly when its modification
timestamp is less than OR EQUAL TO today minus retention_days; an item whose
mtime equals the threshold exactly is removed. -/
theorem retention_nonstrict (days today : Int) (files : List (List Char × Int))
    (p : List Char) :
    (p ∈ localListExpired days today files ↔
        ∃ m : Int, (p, m) ∈ files ∧ m ≤ today - days * 86400) ∧
    (p ∈ gcSweepRemoved days today files ↔
        ∃ m : Int, (p, m) ∈ files ∧ m ≤ today - days * 86400) ∧
    (∀ m : Int, (p, m) ∈ sweepRemaining days today files ↔
        (p, m) ∈ files ∧ ¬ m ≤ today - days * 86400) := by
  refine ⟨mem_localListExpired_iff days today files p, ?_, ?_⟩
  · exact mem_localListExpired_iff days today files p
  · intro m
    unfold sweepRemaining
    simp

/-- Counterexample to claim C9: with `retention_days = 0` the local backend
yields a file whose mtime equals today, because `LocalStorage.list_expired`
has no `retention_days <= 0` short-circuit. -/
theorem local_retention_zero_yields :
    localListExpired 0 86400 [(("f".toList), 86400)] = [("f".toList)] ∧ (0 : Int) ≤ 0 := by
  constructor
  · rfl
  · decide

/-- Claim C9 (amended): only the Youtube backend short-circuits: if its
configured expiration is ≤ 0, `YoutubeStorage.list_expired` yields nothing.
`LocalStorage.list_expired` has no such short-circuit: even for
`retention_days ≤ 0` it yields exactly the files with
`mtime ≤ today − retention_days·86400`. -/
theorem retention_shortcircuit_youtube_only :
    (∀ (e nowUtc : Int) (pages : List (List (List Char × Int))),
        e ≤ 0 → youtubeListExpired e nowUtc pages = []) ∧
    (∀ (days today : Int) (files : List (List Char × Int)) (p : List Char),
        days ≤ 0 →
          (p ∈ localListExpired days today files ↔
            ∃ m : Int, (p, m) ∈ files ∧ m ≤ today - days * 86400)) := by
  constructor
  · intro e nowUtc pages he
    unfold youtubeListExpired
    rw [if_pos he]
  · intro days today files p _
    exact mem_localListExpired_iff days today files p

/-- Witness for claim C9 (amended) at expiration 0 and a one-file tree. -/
theorem retention_shortcircuit_witness :
    youtubeListExpired 0 1000 [[(("b".toList), 500)]] = [] ∧
      (("f".toList) ∈ localListExpired 0 86400 [(("f".toList), 500)] ↔
        ∃ m : Int, (("f".toList), m) ∈ [(("f".toList), 500)] ∧ m ≤ 86400 - 0 * 86400) :=
  ⟨retention_shortcircuit_youtube_only.1 0 1000 [[(("b".toList), 500)]] (by decide),
   retention_shortcircuit_youtube_only.2 0 86400 [(("f".toList), 500)] ("f".toList) (by decide)⟩

/-! ### CameraRecorder.run main loop (src/surveillance/recorder.py)

Wall-clock instants are integer epoch seconds; `time.time() + self._gm_offset`
is `now + gmOffset` and the Python float `%` on a positive divisor matches
`Int.emod`.  Items in the shared error queue are either `RuntimeWarning`s or
raisable errors; the drain loop logs warnings and raises the first
non-warning item. -/

/-- An item of the shared error queue of `CameraRecorder`. -/
inductive QueueItem where
  | warnItem (msg : List Char)
  | errItem (e : PyExc)
  deriving DecidableEq, Repr

def QueueItem.isWarning : QueueItem → Bool
  | .warnItem _ => true
  | .errItem _ => false

/-- The error-drain loop inside the main loop: pop items, logging warnings,
until the queue empties or a non-warning item is raised.  Returns the logged
warnings and the raised error, if any. -/
def drainErrorQueue : List QueueItem → List (List Char) × Option PyExc
  | [] => ([], none)
  | .warnItem w :: rest =>
    let r := drainErrorQueue rest
    (w :: r.1, r.2)
  | .errItem e :: _ => ([], some e)

/-- Result of one iteration of the segment main loop. -/
inductive MainStep where
  | raised (e : PyExc)
  | segmentEnd
  | nextIter (newLast : Int)
  deriving DecidableEq, Repr

/-- One iteration of the main loop body of `CameraRecorder.run`: compute
`t = (time.time() + self._gm_offset) % self._length`, drain the error queue
(raising the first non-warning), then break if `t < last_time`, else set
`last_time = t` and sleep. -/
def mainLoopStep (gmOffset len lastTime now : Int) (queued : List QueueItem) : MainStep :=
  let t := (now + gmOffset) % len
  match (drainErrorQueue queued).2 with
  | some e => .raised e
  | none => if t < lastTime then .segmentEnd else .nextIter t

/-- How the main loop of one segment terminates. -/
inductive LoopOutcome where
  | interrupted (lastTime : Int)
  | segmentEnd (lastTime : Int)
  | raised (e : PyExc)
  | traceEnded (lastTime : Int)
  deriving DecidableEq, Repr

/-- The `while not self._interrupt` main loop, driven by a finite trace of
per-iteration observations `(interrupt flag, current time, queued errors)`. -/
def mainLoop (gmOffset len : Int) :
    List (Bool × Int × List QueueItem) → Int → LoopOutcome
  | [], last => .traceEnded last
  | (intr, now, q) :: rest, last =>
    if intr then .interrupted last
    else
      match mainLoopStep gmOffset len last now q with
      | .raised e => .raised e
      | .segmentEnd => .segmentEnd last
      | .nextIter t => mainLoop gmOffset len rest t

theorem drainErrorQueue_all_warnings (q : List QueueItem)
    (hq : ∀ e ∈ q, e.isWarning = true) : (drainErrorQueue q).2 = none := by
  induction q with
  | nil => rfl
  | cons x rest ih =>
    cases x with
    | warnItem w =>
      unfold drainErrorQueue
      exact ih (fun e he => hq e (by simp [he]))
    | errItem e =>
      have := hq (.errItem e) (by simp)
      simp [QueueItem.isWarning] at this

/-- Claim C1: in the pipeline main loop of `CameraRecorder.run`, in any
iteration whose queued errors are all warnings, a segment boundary is
detected exactly when `t = (now + gm_offset) % segment_length` is strictly
below the previous iteration's `last_time`; then the loop breaks out, and
otherwise `last_time` is updated to `t` and the loop continues. -/
theorem segment_rollover_detection (gmOffset len lastTime now : Int)
    (queued : List QueueItem) (hq : ∀ e ∈ queued, e.isWarning = true) :
    (mainLoopStep gmOffset len lastTime now queued = .segmentEnd ↔
       (now + gmOffset) % len < lastTime) ∧
    (¬ (now + gmOffset) % len < lastTime →
       mainLoopStep gmOffset len lastTime now queued = .nextIter ((now + gmOffset) % len)) ∧
    (∀ rest : List (Bool × Int × List QueueItem),
       mainLoop gmOffset len ((false, now, queued) :: rest) lastTime =
         if (now + gmOffset) % len < lastTime then .segmentEnd lastTime
         else mainLoop gmOffset len rest ((now + gmOffset) % len)) := by
  have hdrain := drainErrorQueue_all_warnings queued hq
  have hstep : mainLoopStep gmOffset len lastTime now queued =
      if (now + gmOffset) % len < lastTime then .segmentEnd
      else .nextIter ((now + gmOffset) % len) := by
    unfold mainLoopStep
    rw [hdrain]
  refine ⟨?_, ?_, ?_⟩
  · rw [hstep]
    by_cases h : (now + gmOffset) % len < lastTime
    · simp [h]
    · simp [h]
  · intro h
    rw [hstep, if_neg h]
  · intro rest
    show (if false = true then LoopOutcome.interrupted lastTime else _) = _
    rw [if_neg (by simp), hstep]
    by_cases h : (now + gmOffset) % len < lastTime
    · rw [if_pos h, if_pos h]
    · rw [if_neg h, if_neg h]

/-- Witness for claim C1 at a concrete iteration: offset 0, segment length
60 s, previous `last_time` 59, current time 60 (so `t = 0 < 59`: rollover). -/
theorem segment_rollover_detection_witness :
    (mainLoopStep 0 60 59 60 [] = .segmentEnd ↔ (60 + 0 : Int) % 60 < 59) ∧
    (¬ (60 + 0 : Int) % 60 < 59 → mainLoopStep 0 60 59 60 [] = .nextIter ((60 + 0) % 60)) ∧
    (∀ rest : List (Bool × Int × List QueueItem),
       mainLoop 0 60 ((false, 60, []) :: rest) 59 =
         if (60 + 0 : Int) % 60 < 59 then .segmentEnd 59 else mainLoop 0 60 rest ((60 + 0) % 60)) :=
  segment_rollover_detection 0 60 59 60 [] (by simp)

/-! ### Sink-open retry backoff in CameraRecorder.run (src/surveillance/recorder.py)

The outer loop of `run` under the scenario of claim C2: every sink's `open`
raises `OSError` in every round, so `is_opened()` is false for every sink and
the `all(...)` branch is taken each time.  The loop decrements `attempts`,
raises `OSError(EIO, 'No sinks could be opened')` when it hits zero, and
otherwise sleeps `error_wait_time` and doubles it. -/

def noSinksMsg : List Char := "No sinks could be opened".toList

/-- What the retry loop did before raising: how many rounds of sink-opening
were attempted, which sleeps were performed, and the raised error. -/
structure RetryOutcome where
  openRounds : Nat
  sleeps : List Nat
  raisedErrno : Nat
  raisedMsg : List Char
  deriving DecidableEq, Repr

/-- The retry loop with explicit fuel (`none` = fuel exhausted; with
`attempts ≤ 0` the Python loop never terminates). -/
def allSinksFailLoop : Nat → Int → Nat → Nat → List Nat → Option RetryOutcome
  | 0, _, _, _, _ => none
  | fuel + 1, attempts, delay, rounds, sleeps =>
    if attempts - 1 = 0 then some ⟨rounds + 1, sleeps, errnoEio, noSinksMsg⟩
    else allSinksFailLoop fuel (attempts - 1) (2 * delay) (rounds + 1) (sleeps ++ [delay])

/-- `CameraRecorder.run` when no sink ever opens, started with
`attempts = self._reconnect_attempts` and `delay = self._reconnect_delay`. -/
def runAllSinksFail (maxAttempts : Int) (baseDelay fuel : Nat) : Option RetryOutcome :=
  allSinksFailLoop fuel maxAttempts baseDelay 0 []

theorem allSinksFailLoop_spec :
    ∀ (n fuel : Nat), n < fuel → ∀ (d rounds : Nat) (sleeps : List Nat),
      allSinksFailLoop fuel ((n : Int) + 1) d rounds sleeps =
        some ⟨rounds + n + 1, sleeps ++ (List.range n).map (fun i => d * 2 ^ i),
              errnoEio, noSinksMsg⟩ := by
  intro n
  induction n with
  | zero =>
    intro fuel hf d rounds sleeps
    match fuel, hf with
    | f + 1, _ =>
      unfold allSinksFailLoop
      norm_num
  | succ k ih =>
    intro fuel hf d rounds sleeps
    match fuel, hf with
    | f + 1, hf =>
      unfold allSinksFailLoop
      have harg : (((k + 1 : Nat) : Int)) + 1 - 1 = (k : Int) + 1 := by push_cast; ring
      rw [harg, if_neg (by omega), ih f (by omega) (2 * d) (rounds + 1) (sleeps ++ [d])]
      simp only [Option.some.injEq, RetryOutcome.mk.injEq, and_true, true_and]
      refine ⟨by omega, ?_⟩
      rw [List.range_succ_eq_map, List.map_cons, List.map_map, List.append_assoc,
        List.singleton_append]
      congr 1
      congr 1
      · simp
      · apply List.map_congr_left
        intro i _
        simp only [Function.comp_apply, Nat.succ_eq_add_one, pow_succ]
        ring

/-- Claim C2: if on every iteration all sinks fail to open, then starting
from `max_attempts ≥ 1` and base delay `d`, `CameraRecorder.run` performs
`max_attempts` rounds of open attempts, sleeping
`d, 2d, 4d, …, d·2^(max_attempts−2)` between them, and then raises
`OSError(EIO, 'No sinks could be opened')`. -/
theorem retry_backoff_eio (maxAttempts baseDelay fuel : Nat)
    (h1 : 1 ≤ maxAttempts) (h2 : maxAttempts ≤ fuel) :
    runAllSinksFail (maxAttempts : Int) baseDelay fuel =
      some ⟨maxAttempts, (List.range (maxAttempts - 1)).map (fun i => baseDelay * 2 ^ i),
            errnoEio, noSinksMsg⟩ := by
  unfold runAllSinksFail
  have hcast : ((maxAttempts : Int)) = ((maxAttempts - 1 : Nat) : Int) + 1 := by
    push_cast [h1]
    omega
  rw [hcast, allSinksFailLoop_spec (maxAttempts - 1) fuel (by omega) baseDelay 0 []]
  simp only [Option.some.injEq, RetryOutcome.mk.injEq, List.nil_append, and_true, true_and]
  omega

/-- Witness for claim C2 at `max_attempts = 3`, base delay 1: three rounds,
sleeps `[1, 2]`, then EIO. -/
theorem retry_backoff_eio_witness :
    runAllSinksFail 3 1 3 =
      some ⟨3, (List.range 2).map (fun i => 1 * 2 ^ i), errnoEio, noSinksMsg⟩ :=
  retry_backoff_eio 3 1 3 (by decide) (by decide)

/-! ### Sinks (src/src/libreeye/sinks/file.py, src/surveillance/sinks/file.py,
src/surveillance/sinks/aws_bucket.py)

Each sink is a state record; opaque OS resources (file objects, subprocess
handles, boto3 clients, threads) are numeric handles supplied by the
environment, and the side effects of a call are collected in a list. -/

def errnoEperm : Nat := 1

/-- Side effects a sink operation can perform. -/
inductive SinkEffect where
  | openedFile (name : List Char)
  | closedFile (handle : Nat)
  | createdClient (c : Nat)
  | spawnedSubprocess (p : Nat) (outName : Option (List Char))
  | startedUploadThread (t : Nat) (key : List Char)
  | closedStdin (p : Nat)
  | wroteStdin (p : Nat) (bytes : List Nat)
  deriving DecidableEq, Repr

/-- State of the libreeye `FileSink` (sinks/file.py): `_path`, `_file`,
`_filename`, `_ext`, `_byte_count`. -/
structure FileSinkState where
  path : List Char
  file : Option Nat
  filename : Option (List Char)
  ext : Option (List Char)
  byteCount : Nat
  deriving DecidableEq, Repr

def FileSink.is_opened (s : FileSinkState) : Bool := s.file.isSome

/-- `FileSink.open`: return at once if `self._file is not None`; otherwise
stamp a filename from the current local time and open it for binary writing. -/
def FileSink.openSink (strftimeNow : List Char) (newHandle : Nat)
    (s : FileSinkState) (ext : List Char) :
    FileSinkState × List SinkEffect × Option PyExc :=
  match s.file with
  | some _ => (s, [], none)
  | none =>
    let filename := s.path ++ ('/' :: strftimeNow) ++ ('.' :: ext)
    ({ s with ext := some ext, filename := some filename, file := some newHandle,
              byteCount := 0 },
     [.openedFile filename], none)

/-- `FileSink.write`: `self._file.write(data)` — an `AttributeError` on a
closed sink, an append otherwise. -/
def FileSink.write (s : FileSinkState) (data : List Nat) :
    FileSinkState × List SinkEffect × Option PyExc :=
  match s.file with
  | none => ({ s with byteCount := s.byteCount + data.length }, [], some .attributeError)
  | some h =>
    ({ s with byteCount := s.byteCount + data.length }, [.wroteStdin h data], none)

/-- `FileSink.close`: `self._file.close()` — dereferences `self._file`, so an
already-closed sink raises `AttributeError` (`None` has no `close`). -/
def FileSink.close (s : FileSinkState) : FileSinkState × List SinkEffect × Option PyExc :=
  match s.file with
  | none => (s, [], some .attributeError)
  | some h => ({ s with file := none, filename := none }, [.closedFile h], none)

/-- The `video_info` probe dict fields used by the surveillance sinks:
`width`, `height` and `avg_frame_rate` split as `num/den`. -/
structure VideoInfo where
  width : Int
  height : Int
  frNum : Int
  frDen : Int
  deriving DecidableEq, Repr

/-- State of the surveillance `FileSink` (surveillance/sinks/file.py). -/
structure SvFileSinkState where
  path : List Char
  width : Int
  height : Int
  frameRate : Int
  sub : Option Nat
  length : Int
  gmOffset : Int
  lastWrite : Int
  frameNum : Nat
  deriving DecidableEq, Repr

def SvFileSink.is_opened (s : SvFileSinkState) : Bool := s.sub.isSome

/-- `FileSink._open_stream` (surveillance variant): spawn the encoder
subprocess writing `<path>/<asctime>.mp4`, reset `_frame_num`, stamp
`_last_write`. -/
def SvFileSink.open_stream (now : Int) (asctimeNow : List Char) (newSub : Nat)
    (s : SvFileSinkState) : SvFileSinkState × List SinkEffect :=
  ({ s with sub := some newSub, frameNum := 0,
            lastWrite := (now + s.gmOffset) % s.length },
   [.spawnedSubprocess newSub (some (s.path ++ ('/' :: asctimeNow) ++ (".mp4".toList)))])

/-- `FileSink.open` (surveillance variant): return at once if
`self._subprocess is not None`; otherwise record the video geometry and open
the stream. -/
def SvFileSink.openSink (now : Int) (asctimeNow : List Char) (newSub : Nat)
    (s : SvFileSinkState) (vi : VideoInfo) :
    SvFileSinkState × List SinkEffect × Option PyExc :=
  match s.sub with
  | some _ => (s, [], none)
  | none =>
    let s1 := { s with width := vi.width, height := vi.height,
                       frameRate := Int.fdiv vi.frNum vi.frDen }
    let r := SvFileSink.open_stream now asctimeNow newSub s1
    (r.1, r.2, none)

/-- State of `AWSBucketSink` (surveillance/sinks/aws_bucket.py). -/
structure AWSBucketSinkState where
  awsId : List Char
  awsSecret : List Char
  bucket : List Char
  keyPre : List Char
  timeout : Int
  partMinSize : Nat
  partSize : Nat
  s3 : Option Nat
  ffmpegSub : Option Nat
  width : Int
  height : Int
  frameRate : Int
  thread : Option Nat
  threadException : Option PyExc
  length : Int
  gmOffset : Int
  lastWrite : Int
  deriving DecidableEq, Repr

def AWSBucketSink.is_opened (s : AWSBucketSinkState) : Bool := s.ffmpegSub.isSome

/-- Outcome of the `list_buckets` probe performed by `AWSBucketSink.open`. -/
inductive ListBucketsResult where
  | ok (names : List (List Char))
  | clientError (status : Nat)
  | endpointConnectionError (msg : List Char)
  deriving DecidableEq, Repr

/-- Environment for one `AWSBucketSink` call: current time, `time.asctime`
stamp, result of the bucket listing, and fresh handles. -/
structure AWSEnv where
  now : Int
  asctimeNow : List Char
  listBuckets : ListBucketsResult
  newClient : Nat
  newSub : Nat
  newThread : Nat
  deriving DecidableEq, Repr

/-- `AWSBucketSink._open_stream`: spawn the piped encoder subprocess and
stamp `_last_write` with the modular clock. -/
def AWSBucketSink.open_stream (now : Int) (newSub : Nat) (s : AWSBucketSinkState) :
    AWSBucketSinkState × List SinkEffect :=
  ({ s with ffmpegSub := some newSub, lastWrite := (now + s.gmOffset) % s.length },
   [.spawnedSubprocess newSub none])

/-- `AWSBucketSink._create_upload_thread`: start the uploader thread for
`key` and clear `_thread_exception`. -/
def AWSBucketSink.create_upload_thread (newThread : Nat) (key : List Char)
    (s : AWSBucketSinkState) : AWSBucketSinkState × List SinkEffect :=
  ({ s with thread := some newThread, threadException := none },
   [.startedUploadThread newThread key])

/-- `AWSBucketSink.open`: return at once if `self._ffmpeg_subprocess is not
None`; otherwise create the S3 client, check the bucket (403 →
`PermissionError`, other client errors re-raised, endpoint failure →
`ConnectionError`, missing bucket → `FileNotFoundError`), then open the
stream and start the uploader.  Exception messages coming from boto are
abstracted to the empty string. -/
def AWSBucketSink.openSink (env : AWSEnv) (s : AWSBucketSinkState) (vi : VideoInfo) :
    AWSBucketSinkState × List SinkEffect × Option PyExc :=
  match s.ffmpegSub with
  | some _ => (s, [], none)
  | none =>
    let s1 := { s with s3 := some env.newClient }
    match env.listBuckets with
    | .clientError status =>
      if status = 403 then
        (s1, [.createdClient env.newClient], some (.permissionError errnoEperm []))
      else (s1, [.createdClient env.newClient], some (.clientError status))
    | .endpointConnectionError msg =>
      (s1, [.createdClient env.newClient], some (.connectionError errnoEnetunreach msg))
    | .ok names =>
      if s.bucket ∈ names then
        let s2 := { s1 with width := vi.width, height := vi.height,
                            frameRate := Int.fdiv vi.frNum vi.frDen }
        let r3 := AWSBucketSink.open_stream env.now env.newSub s2
        let key := s.keyPre ++ ('/' :: env.asctimeNow) ++ (".mp4".toList)
        let r4 := AWSBucketSink.create_upload_thread env.newThread key r3.1
        (r4.1, [.createdClient env.newClient] ++ r3.2 ++ r4.2, none)
      else
        (s1, [.createdClient env.newClient],
         some (.fileNotFoundError errnoEnoent
           (("There is no bucket named ".toList) ++ s.bucket ++ ['.'])))

/-- `AWSBucketSink._close_stream`: close the subprocess stdin, wait for the
uploader thread to die or record an exception, clear the references, and
re-raise the recorded exception if any.  On an unopened sink the very first
attribute access raises `AttributeError`. -/
def AWSBucketSink.close_stream (s : AWSBucketSinkState) :
    AWSBucketSinkState × List SinkEffect × Option PyExc :=
  match s.ffmpegSub with
  | none => (s, [], some .attributeError)
  | some sub =>
    match s.thread with
    | none => (s, [.closedStdin sub], some .attributeError)
    | some _ =>
      let s1 := { s with ffmpegSub := none, thread := none }
      match s1.threadException with
      | some e => ({ s1 with threadException := none }, [.closedStdin sub], some e)
      | none => (s1, [.closedStdin sub], none)

/-- `AWSBucketSink.close` delegates to `_close_stream`. -/
def AWSBucketSink.close (s : AWSBucketSinkState) :
    AWSBucketSinkState × List SinkEffect × Option PyExc :=
  AWSBucketSink.close_stream s

/-- `AWSBucketSink.write` with fuel for its `return self.write(frames)`
self-call after a segment swap (with a fixed clock the recursion depth is at
most one, so any fuel ≥ 2 is exact; exhausted fuel models Python's
`RecursionError`). -/
def AWSBucketSink.writeAux : Nat → AWSEnv → AWSBucketSinkState → List Nat →
    AWSBucketSinkState × List SinkEffect × Option PyExc
  | 0, _, s, _ => (s, [], some .runtimeError)
  | fuel + 1, env, s, frames =>
    if s.threadException.isSome then
      AWSBucketSink.close_stream s
    else
      if (env.now + s.gmOffset) % s.length < s.lastWrite then
        match AWSBucketSink.close_stream s with
        | (s1, eff1, some e) => (s1, eff1, some e)
        | (s1, eff1, none) =>
          let r2 := AWSBucketSink.open_stream env.now env.newSub s1
          let key := s.keyPre ++ ('/' :: env.asctimeNow) ++ (".mp4".toList)
          let r3 := AWSBucketSink.create_upload_thread env.newThread key r2.1
          let r4 := AWSBucketSink.writeAux fuel env r3.1 frames
          (r4.1, eff1 ++ r2.2 ++ r3.2 ++ r4.2.1, r4.2.2)
      else
        match s.ffmpegSub with
        | none => (s, [], some .attributeError)
        | some sub =>
          ({ s with lastWrite := (env.now + s.gmOffset) % s.length },
           [.wroteStdin sub frames], none)

def AWSBucketSink.write (env : AWSEnv) (s : AWSBucketSinkState) (frames : List Nat) :
    AWSBucketSinkState × List SinkEffect × Option PyExc :=
  AWSBucketSink.writeAux 2 env s frames

/-- Claim C5: sink open is idempotent.  On every sink variant, calling
`open` when the sink is already open returns without changing the state and
without creating any file, subprocess, client or upload session (empty
effect list), and without raising. -/
theorem sink_open_idempotent :
    (∀ (ts : List Char) (h : Nat) (s : FileSinkState) (ext : List Char),
        FileSink.is_opened s = true → FileSink.openSink ts h s ext = (s, [], none)) ∧
    (∀ (now : Int) (ts : List Char) (p : Nat) (s : SvFileSinkState) (vi : VideoInfo),
        SvFileSink.is_opened s = true → SvFileSink.openSink now ts p s vi = (s, [], none)) ∧
    (∀ (env : AWSEnv) (s : AWSBucketSinkState) (vi : VideoInfo),
        AWSBucketSink.is_opened s = true → AWSBucketSink.openSink env s vi = (s, [], none)) := by
  refine ⟨?_, ?_, ?_⟩
  · intro ts h s ext hop
    unfold FileSink.is_opened at hop
    unfold FileSink.openSink
    match hf : s.file with
    | some v => rfl
    | none => rw [hf] at hop; simp at hop
  · intro now ts p s vi hop
    unfold SvFileSink.is_opened at hop
    unfold SvFileSink.openSink
    match hf : s.sub with
    | some v => rfl
    | none => rw [hf] at hop; simp at hop
  · intro env s vi hop
    unfold AWSBucketSink.is_opened at hop
    unfold AWSBucketSink.openSink
    match hf : s.ffmpegSub with
    | some v => rfl
    | none => rw [hf] at hop; simp at hop

/-- Witness for claim C5 on concrete already-open sink states. -/
theorem sink_open_idempotent_witness :
    FileSink.openSink [] 7
        { path := [], file := some 1, filename := some ("x".toList),
          ext := some ("mkv".toList), byteCount := 3 } ("mkv".toList) =
      ({ path := [], file := some 1, filename := some ("x".toList),
         ext := some ("mkv".toList), byteCount := 3 }, [], none) ∧
    SvFileSink.openSink 0 [] 7
        { path := [], width := 1, height := 1, frameRate := 1, sub := some 2,
          length := 60, gmOffset := 0, lastWrite := 0, frameNum := 0 }
        { width := 1, height := 1, frNum := 30, frDen := 1 } =
      ({ path := [], width := 1, height := 1, frameRate := 1, sub := some 2,
         length := 60, gmOffset := 0, lastWrite := 0, frameNum := 0 }, [], none) ∧
    AWSBucketSink.openSink
        { now := 0, asctimeNow := [], listBuckets := .ok [], newClient := 1,
          newSub := 2, newThread := 3 }
        { awsId := [], awsSecret := [], bucket := [], keyPre := [], timeout := 5,
          partMinSize := 5, partSize := 5, s3 := some 4, ffmpegSub := some 5,
          width := 0, height := 0, frameRate := 0, thread := some 6,
          threadException := none, length := 60, gmOffset := 0, lastWrite := 0 }
        { width := 1, height := 1, frNum := 30, frDen := 1 } =
      ({ awsId := [], awsSecret := [], bucket := [], keyPre := [], timeout := 5,
         partMinSize := 5, partSize := 5, s3 := some 4, ffmpegSub := some 5,
         width := 0, height := 0, frameRate := 0, thread := some 6,
         threadException := none, length := 60, gmOffset := 0, lastWrite := 0 }, [], none) :=
  ⟨sink_open_idempotent.1 [] 7 _ ("mkv".toList) rfl,
   sink_open_idempotent.2.1 0 [] 7 _ _ rfl,
   sink_open_idempotent.2.2 _ _ _ rfl⟩

/-- Counterexample to claim C6: calling `close` on a never-opened (closed)
`FileSink` or `AWSBucketSink` does not return normally — it raises
`AttributeError`, because `self._file` / `self._ffmpeg_subprocess` is `None`
and the code immediately dereferences it. -/
theorem close_on_closed_raises_counterexample :
    (FileSink.close
        { path := [], file := none, filename := none, ext := none, byteCount := 0 }).2.2 =
      some PyExc.attributeError ∧
    (AWSBucketSink.close
        { awsId := [], awsSecret := [], bucket := [], keyPre := [], timeout := 5,
          partMinSize := 5, partSize := 5, s3 := none, ffmpegSub := none,
          width := 0, height := 0, frameRate := 0, thread := none,
          threadException := none, length := 60, gmOffset := 0, lastWrite := 0 }).2.2 =
      some PyExc.attributeError :=
  ⟨rfl, rfl⟩

/-- Claim C6 (amended): `close` on a sink that is already closed (or never
opened) is NOT a no-op: it raises `AttributeError` on the `None` handle and
leaves the state unchanged.  The pipeline guards against this by calling
`close` only on sinks whose `is_opened()` is true. -/
theorem close_on_closed_raises :
    (∀ s : FileSinkState, FileSink.is_opened s = false →
        FileSink.close s = (s, [], some .attributeError)) ∧
    (∀ s : AWSBucketSinkState, AWSBucketSink.is_opened s = false →
        AWSBucketSink.close s = (s, [], some .attributeError)) := by
  constructor
  · intro s hcl
    unfold FileSink.is_opened at hcl
    unfold FileSink.close
    match hf : s.file with
    | none => rfl
    | some v => rw [hf] at hcl; simp at hcl
  · intro s hcl
    unfold AWSBucketSink.is_opened at hcl
    unfold AWSBucketSink.close AWSBucketSink.close_stream
    match hf : s.ffmpegSub with
    | none => rfl
    | some v => rw [hf] at hcl; simp at hcl

/-- Witness for claim C6 (amended) on concrete closed sink states. -/
theorem close_on_closed_raises_witness :
    FileSink.close { path := [], file := none, filename := none, ext := none, byteCount := 0 } =
      ({ path := [], file := none, filename := none, ext := none, byteCount := 0 }, [],
       some .attributeError) ∧
    AWSBucketSink.close
        { awsId := [], awsSecret := [], bucket := [], keyPre := [], timeout := 5,
          partMinSize := 5, partSize := 5, s3 := none, ffmpegSub := none,
          width := 0, height := 0, frameRate := 0, thread := none,
          threadException := none, length := 60, gmOffset := 0, lastWrite := 0 } =
      ({ awsId := [], awsSecret := [], bucket := [], keyPre := [], timeout := 5,
         partMinSize := 5, partSize := 5, s3 := none, ffmpegSub := none,
         width := 0, height := 0, frameRate := 0, thread := none,
         threadException := none, length := 60, gmOffset := 0, lastWrite := 0 }, [],
       some .attributeError) :=
  ⟨close_on_closed_raises.1 _ rfl, close_on_closed_raises.2 _ rfl⟩

/-- Claim C7: if the uploader thread has recorded an error, the next
`AWSBucketSink.write` on the open sink raises exactly that recorded error —
independently of the block being written — instead of accepting and
discarding the block: no bytes are written to the encoder stdin. -/
theorem write_surfaces_thread_error (env : AWSEnv) (s : AWSBucketSinkState)
    (frames : List Nat) (e : PyExc) (sub th : Nat)
    (he : s.threadException = some e) (hsub : s.ffmpegSub = some sub)
    (hth : s.thread = some th) :
    AWSBucketSink.write env s frames =
      ({ s with ffmpegSub := none, thread := none, threadException := none },
       [.closedStdin sub], some e) := by
  unfold AWSBucketSink.write AWSBucketSink.writeAux
  rw [he]
  simp only [Option.isSome_some, if_true]
  unfold AWSBucketSink.close_stream
  rw [hsub]
  simp only [hth, he]

/-- Witness for claim C7 with a recorded `ConnectionError(ETIMEDOUT)` on an
open sink and an arbitrary concrete block. -/
theorem write_surfaces_thread_error_witness :
    AWSBucketSink.write
        { now := 0, asctimeNow := [], listBuckets := .ok [], newClient := 1,
          newSub := 2, newThread := 3 }
        { awsId := [], awsSecret := [], bucket := [], keyPre := [], timeout := 5,
          partMinSize := 5, partSize := 5, s3 := some 4, ffmpegSub := some 5,
          width := 0, height := 0, frameRate := 0, thread := some 6,
          threadException := some (.connectionError errnoEtimedout []),
          length := 60, gmOffset := 0, lastWrite := 0 } [9, 9, 9] =
      ({ awsId := [], awsSecret := [], bucket := [], keyPre := [], timeout := 5,
         partMinSize := 5, partSize := 5, s3 := some 4, ffmpegSub := none,
         width := 0, height := 0, frameRate := 0, thread := none,
         threadException := none, length := 60, gmOffset := 0, lastWrite := 0 },
       [.closedStdin 5], some (.connectionError errnoEtimedout [])) :=
  write_surfaces_thread_error _ _ [9, 9, 9] (.connectionError errnoEtimedout []) 5 6
    rfl rfl rfl

/-! ### Daemon camera control (src/src/libreeye/daemon/daemon.py)

The docker runtime is abstracted into an environment: `running id` says
whether the camera's recorder container is currently listed, `logExists id`
whether its log file exists, and `exitCode id` the status code returned by
`container.wait()`. -/

structure DCameraConf where
  name : List Char
  deriving DecidableEq, Repr

structure DCameraState where
  conf : DCameraConf
  active : Bool
  deriving DecidableEq, Repr

structure DaemonState where
  cameras : List DCameraState
  deriving DecidableEq, Repr

inductive DaemonEffect where
  | createdLogFile (id : Nat)
  | ranContainer (id : Nat)
  | killedContainer (id : Nat)
  deriving DecidableEq, Repr

/-- `Daemon.start_camera`: read the camera name (an out-of-range id raises
`IndexError`), set the camera active, then — if the recorder container is
already running — `raise RuntimeError()`; otherwise ensure the log file
exists and run the container detached. -/
def Daemon.start_camera (running logExists : Nat → Bool)
    (s : DaemonState) (id : Nat) : DaemonState × List DaemonEffect × Option PyExc :=
  match s.cameras.get? id with
  | none => (s, [], some .indexError)
  | some cam =>
    let s1 : DaemonState := ⟨s.cameras.set id { cam with active := true }⟩
    if running id then (s1, [], some .runtimeError)
    else
      (s1,
       (if logExists id then [] else [.createdLogFile id]) ++ [.ranContainer id],
       none)

/-- `Daemon.stop_camera`: set the camera inactive, list its container; if the
destructuring `[container] = …` fails (container not running) the caught
`ValueError` is turned into `raise NameError()`; otherwise kill with SIGTERM,
wait, and return the status code. -/
def Daemon.stop_camera (running : Nat → Bool) (exitCode : Nat → Int)
    (s : DaemonState) (id : Nat) : DaemonState × List DaemonEffect × Except PyExc Int :=
  match s.cameras.get? id with
  | none => (s, [], .error .indexError)
  | some cam =>
    let s1 : DaemonState := ⟨s.cameras.set id { cam with active := false }⟩
    if running id then (s1, [.killedContainer id], .ok (exitCode id))
    else (s1, [], .error .nameError)

/-- Counterexample to claim C8: a `start` for a camera whose recorder is
already running raises `RuntimeError` (it is not a no-op), and a `stop` for
a camera that is not running raises `NameError` (no exit-code reply is
produced). -/
theorem control_plane_not_idempotent_counterexample :
    (Daemon.start_camera (fun _ => true) (fun _ => true)
        ⟨[{ conf := { name := "c".toList }, active := true }]⟩ 0).2.2 =
      some PyExc.runtimeError ∧
    (Daemon.stop_camera (fun _ => false) (fun _ => 0)
        ⟨[{ conf := { name := "c".toList }, active := false }]⟩ 0).2.2 =
      .error PyExc.nameError :=
  ⟨rfl, rfl⟩

/-- Claim C8 (amended): the control plane is NOT idempotent.  A `start` for
a camera whose recorder container is already running marks the camera active
and then raises `RuntimeError` without starting anything; a `stop` for a
camera whose container is not running marks it inactive and raises
`NameError` (so the handler sends no exit-code reply). -/
theorem control_plane_not_idempotent :
    (∀ (running logExists : Nat → Bool) (s : DaemonState) (id : Nat) (cam : DCameraState),
        s.cameras.get? id = some cam → running id = true →
          Daemon.start_camera running logExists s id =
            (⟨s.cameras.set id { cam with active := true }⟩, [], some .runtimeError)) ∧
    (∀ (running : Nat → Bool) (exitCode : Nat → Int) (s : DaemonState) (id : Nat)
        (cam : DCameraState),
        s.cameras.get? id = some cam → running id = false →
          Daemon.stop_camera running exitCode s id =
            (⟨s.cameras.set id { cam with active := false }⟩, [], .error .nameError)) := by
  constructor
  · intro running logExists s id cam hget hrun
    unfold Daemon.start_camera
    rw [hget]
    simp only [hrun, if_true]
  · intro running exitCode s id cam hget hrun
    unfold Daemon.stop_camera
    rw [hget]
    simp only [hrun, if_false, Bool.false_eq_true]

/-- Witness for claim C8 (amended) on a one-camera daemon state. -/
theorem control_plane_not_idempotent_witness :
    Daemon.start_camera (fun _ => true) (fun _ => true)
        ⟨[{ conf := { name := "c".toList }, active := true }]⟩ 0 =
      (⟨[{ conf := { name := "c".toList }, active := true }]⟩, [], some .runtimeError) ∧
    Daemon.stop_camera (fun _ => false) (fun _ => 0)
        ⟨[{ conf := { name := "c".toList }, active := true }]⟩ 0 =
      (⟨[{ conf := { name := "c".toList }, active := false }]⟩, [], .error .nameError) := by
  constructor
  · have h := control_plane_not_idempotent.1 (fun _ => true) (fun _ => true)
      ⟨[{ conf := { name := "c".toList }, active := true }]⟩ 0
      { conf := { name := "c".toList }, active := true } rfl rfl
    exact h
  · have h := control_plane_not_idempotent.2 (fun _ => false) (fun _ => 0)
      ⟨[{ conf := { name := "c".toList }, active := true }]⟩ 0
      { conf := { name := "c".toList }, active := true } rfl rfl
    exact h

/-! ### The stderr-line classifier
(`CameraRecorder._ErrReaderThread._parse_error_msg`, src/surveillance/recorder.py)

The three `re.match` patterns are embedded as explicit parsers over
`List Char`.  Each regex is anchored at the start (`re.match`) and at the end
(`$`, which in Python also matches just before one trailing newline).  The
character-class runs `[a-z0-9]+` and `\d+` are always followed in the
patterns by a literal character outside the class, so the greedy maximal run
(`List.takeWhile`) is exact — no backtracking can produce a different
match. -/

/-- The `[a-z0-9]` character class of the address runs. -/
def isAddrChar (c : Char) : Bool := c.isLower || c.isDigit

/-- Strip an exact literal from the front of a string. -/
def dropLit : List Char → List Char → Option (List Char)
  | [], s => some s
  | _ :: _, [] => none
  | l :: ls, c :: cs => if c = l then dropLit ls cs else none

/-- Match the `([^\n]+)$` tail: the capture is nonempty and newline-free, and
`$` allows one optional trailing newline. -/
def capLineEnd (s : List Char) : Option (List Char) :=
  let body := if s.getLast? = some '\n' then s.dropLast else s
  if body.isEmpty || body.any (fun c => c = '\n') then none else some body

/-- Regex 1: `^\[tcp @ [a-z0-9]+\] ([^\n]+)$`; returns the captured message. -/
def matchTcp (line : List Char) : Option (List Char) :=
  match dropLit ("[tcp @ ".toList) line with
  | none => none
  | some r =>
    if (r.takeWhile isAddrChar).isEmpty then none
    else
      match dropLit ("] ".toList) (r.dropWhile isAddrChar) with
      | none => none
      | some tail => capLineEnd tail

/-- Regex 2: `^\[rtsp @ [a-z0-9]+\] CSeq (\d+) expected, (\d+) received\.$`;
returns the two captured digit strings. -/
def matchReset (line : List Char) : Option (List Char × List Char) :=
  match dropLit ("[rtsp @ ".toList) line with
  | none => none
  | some r =>
    if (r.takeWhile isAddrChar).isEmpty then none
    else
      match dropLit ("] CSeq ".toList) (r.dropWhile isAddrChar) with
      | none => none
      | some r2 =>
        if (r2.takeWhile Char.isDigit).isEmpty then none
        else
          match dropLit (" expected, ".toList) (r2.dropWhile Char.isDigit) with
          | none => none
          | some r4 =>
            if (r4.takeWhile Char.isDigit).isEmpty then none
            else
              match dropLit (" received.".toList) (r4.dropWhile Char.isDigit) with
              | none => none
              | some r6 =>
                if r6 = [] ∨ r6 = ['\n'] then
                  some (r2.takeWhile Char.isDigit, r4.takeWhile Char.isDigit)
                else none

/-- The literal head of the capture group of regex 3. -/
def abortPre : List Char := "Could not find codec parameters for stream ".toList

/-- The literal tail of the capture group of regex 3 (after `[^\n]*`). -/
def abortSuffixLit : List Char := ", none): unspecified size".toList

/-- The `[^\n]*, none\): unspecified size$` tail of regex 3: after stripping
one optional trailing newline (Python `$`), the remainder must end in the
literal suffix and the free middle before it must be newline-free; returns
the middle matched by `[^\n]*`. -/
def abortTail (r4 : List Char) : Option (List Char) :=
  let body := if r4.getLast? = some '\n' then r4.dropLast else r4
  if abortSuffixLit.isSuffixOf body ∧
      ¬ (body.take (body.length - abortSuffixLit.length)).any (fun c => c = '\n') then
    some (body.take (body.length - abortSuffixLit.length))
  else none

/-- Regex 3: `^\[rtsp @ [a-z0-9]+\] (Could not find codec parameters for
stream \d+ \(Video: [^\n]*, none\): unspecified size)$`; returns the whole
captured group. -/
def matchAbort (line : List Char) : Option (List Char) :=
  match dropLit ("[rtsp @ ".toList) line with
  | none => none
  | some r =>
    if (r.takeWhile isAddrChar).isEmpty then none
    else
      match dropLit (("] ".toList) ++ abortPre) (r.dropWhile isAddrChar) with
      | none => none
      | some r2 =>
        if (r2.takeWhile Char.isDigit).isEmpty then none
        else
          match dropLit (" (Video: ".toList) (r2.dropWhile Char.isDigit) with
          | none => none
          | some r4 =>
            match abortTail r4 with
            | none => none
            | some mid =>
              some (abortPre ++ (r2.takeWhile Char.isDigit) ++ (" (Video: ".toList) ++
                    mid ++ abortSuffixLit)

/-- The classified stderr errors: `ConnectionRefusedError(EHOSTUNREACH, …)`,
`ConnectionResetError(ECONNRESET, …)`, `ConnectionAbortedError(ECONNABORTED,
…)` or `RuntimeWarning(msg)`. -/
inductive FfmpegError where
  | connectionRefused (en : Nat) (msg : List Char)
  | connectionReset (en : Nat) (msg : List Char)
  | connectionAborted (en : Nat) (msg : List Char)
  | runtimeWarning (msg : List Char)
  deriving DecidableEq, Repr

/-- The message built for the CSeq reset error:
`f'CSeq {m[1]} expected, {m[2]} received.'`. -/
def resetMsg (d1 d2 : List Char) : List Char :=
  ("CSeq ".toList) ++ d1 ++ (" expected, ".toList) ++ d2 ++ (" received.".toList)

/-- `_parse_error_msg`: try the tcp pattern, then the CSeq pattern, then the
codec-probe pattern; anything else is a `RuntimeWarning` carrying the line. -/
def parse_error_msg (line : List Char) : FfmpegError :=
  match matchTcp line with
  | some msg => .connectionRefused errnoEhostunreach msg
  | none =>
    match matchReset line with
    | some (d1, d2) => .connectionReset errnoEconnreset (resetMsg d1 d2)
    | none =>
      match matchAbort line with
      | some msg => .connectionAborted errnoEconnaborted msg
      | none => .runtimeWarning line

/-- Declarative form of a line matching the tcp pattern with capture `msg`. -/
def TcpLine (line msg : List Char) : Prop :=
  ∃ addr t, addr ≠ [] ∧ (∀ c ∈ addr, isAddrChar c = true) ∧
    msg ≠ [] ∧ '\n' ∉ msg ∧ (t = [] ∨ t = ['\n']) ∧
    line = ("[tcp @ ".toList) ++ addr ++ ("] ".toList) ++ msg ++ t

/-- Declarative form of a line matching the CSeq pattern with captures
`d1`, `d2`. -/
def ResetLine (line d1 d2 : List Char) : Prop :=
  ∃ addr t, addr ≠ [] ∧ (∀ c ∈ addr, isAddrChar c = true) ∧
    d1 ≠ [] ∧ (∀ c ∈ d1, c.isDigit = true) ∧
    d2 ≠ [] ∧ (∀ c ∈ d2, c.isDigit = true) ∧
    (t = [] ∨ t = ['\n']) ∧
    line = ("[rtsp @ ".toList) ++ addr ++ ("] CSeq ".toList) ++ d1 ++
           (" expected, ".toList) ++ d2 ++ (" received.".toList) ++ t

/-- Declarative form of a line matching the codec-probe pattern with digit
run `d` and free middle `mid`. -/
def AbortLine (line d mid : List Char) : Prop :=
  ∃ addr t, addr ≠ [] ∧ (∀ c ∈ addr, isAddrChar c = true) ∧
    d ≠ [] ∧ (∀ c ∈ d, c.isDigit = true) ∧
    '\n' ∉ mid ∧ (t = [] ∨ t = ['\n']) ∧
    line = ("[rtsp @ ".toList) ++ addr ++ ("] ".toList) ++ abortPre ++ d ++
           (" (Video: ".toList) ++ mid ++ abortSuffixLit ++ t

/-- The message captured by the codec-probe pattern. -/
def abortMsg (d mid : List Char) : List Char :=
  abortPre ++ d ++ (" (Video: ".toList) ++ mid ++ abortSuffixLit

theorem dropLit_eq_some (lit : List Char) :
    ∀ (s r : List Char), dropLit lit s = some r ↔ s = lit ++ r := by
  induction lit with
  | nil => intro s r; simp [dropLit]
  | cons l ls ih =>
    intro s r
    cases s with
    | nil => simp [dropLit]
    | cons c cs =>
      simp only [dropLit]
      by_cases h : c = l
      · rw [if_pos h, ih cs r]
        subst h
        constructor
        · intro h2; rw [h2]; rfl
        · intro h2
          injection h2 with _ h3
      · rw [if_neg h]
        constructor
        · intro h2; exact absurd h2 (by simp)
        · intro h2
          injection h2 with h3 _
          exact absurd h3 h

theorem takeWhile_append_run (p : Char → Bool) :
    ∀ (xs : List Char) (z : Char) (zs : List Char), (∀ c ∈ xs, p c = true) → p z = false →
      (xs ++ z :: zs).takeWhile p = xs ∧ (xs ++ z :: zs).dropWhile p = z :: zs := by
  intro xs
  induction xs with
  | nil =>
    intro z zs _ hz
    constructor
    · rw [List.nil_append, List.takeWhile_cons_of_neg (by simp [hz])]
    · rw [List.nil_append, List.dropWhile_cons_of_neg (by simp [hz])]
  | cons x xs ih =>
    intro z zs hx hz
    have hpx : p x = true := hx x (by simp)
    have ihz := ih z zs (fun c hc => hx c (by simp [hc])) hz
    constructor
    · rw [List.cons_append, List.takeWhile_cons_of_pos hpx, ihz.1]
    · rw [List.cons_append, List.dropWhile_cons_of_pos hpx, ihz.2]

theorem capLineEnd_eq_some (s b : List Char) :
    capLineEnd s = some b ↔ b ≠ [] ∧ '\n' ∉ b ∧ (s = b ∨ s = b ++ ['\n']) := by
  unfold capLineEnd
  by_cases h : s.getLast? = some '\n'
  · rw [if_pos h]
    have hs : s.dropLast ++ ['\n'] = s := List.dropLast_append_getLast? '\n' h
    constructor
    · intro h2
      by_cases h3 : s.dropLast.isEmpty || s.dropLast.any (fun c => c = '\n')
      · rw [if_pos h3] at h2; exact absurd h2 (by simp)
      · rw [if_neg h3] at h2
        simp only [Bool.or_eq_true, not_or, List.isEmpty_iff, List.any_eq_true,
          decide_eq_true_eq, not_exists, not_and] at h3
        injection h2 with h2
        subst h2
        exact ⟨h3.1, fun hm => h3.2 _ hm rfl, Or.inr hs.symm⟩
    · rintro ⟨hb1, hb2, hb3 | hb3⟩
      · exfalso
        subst hb3
        exact hb2 (by rw [← hs]; simp)
      · have hd : s.dropLast = b := by rw [hb3, List.dropLast_concat]
        rw [hd, if_neg]
        simp only [Bool.or_eq_true, not_or, List.isEmpty_iff, List.any_eq_true,
          decide_eq_true_eq, not_exists, not_and]
        exact ⟨hb1, fun c hc hceq => hb2 (hceq ▸ hc)⟩
  · rw [if_neg h]
    constructor
    · intro h2
      by_cases h3 : s.isEmpty || s.any (fun c => c = '\n')
      · rw [if_pos h3] at h2; exact absurd h2 (by simp)
      · rw [if_neg h3] at h2
        simp only [Bool.or_eq_true, not_or, List.isEmpty_iff, List.any_eq_true,
          decide_eq_true_eq, not_exists, not_and] at h3
        injection h2 with h2
        subst h2
        exact ⟨h3.1, fun hm => h3.2 _ hm rfl, Or.inl rfl⟩
    · rintro ⟨hb1, hb2, hb3 | hb3⟩
      · subst hb3
        rw [if_neg]
        simp only [Bool.or_eq_true, not_or, List.isEmpty_iff, List.any_eq_true,
          decide_eq_true_eq, not_exists, not_and]
        exact ⟨hb1, fun c hc hceq => hb2 (hceq ▸ hc)⟩
      · exfalso
        apply h
        rw [hb3, List.getLast?_append_of_ne_nil _ (by simp)]
        rfl

theorem matchTcp_eq_some (line msg : List Char) :
    matchTcp line = some msg ↔ TcpLine line msg := by
  constructor
  · intro h
    unfold matchTcp at h
    cases h1 : dropLit (("[tcp @ ").toList) line with
    | none => rw [h1] at h; exact absurd h (by simp)
    | some r =>
      simp only [h1] at h
      by_cases h2 : (r.takeWhile isAddrChar).isEmpty
      · rw [if_pos h2] at h; exact absurd h (by simp)
      · rw [if_neg h2] at h
        cases h3 : dropLit (("] ").toList) (r.dropWhile isAddrChar) with
        | none => rw [h3] at h; exact absurd h (by simp)
        | some tail =>
          simp only [h3] at h
          obtain ⟨hm1, hm2, hm3⟩ := (capLineEnd_eq_some tail msg).mp h
          have hline : line = ("[tcp @ ".toList) ++ r := (dropLit_eq_some _ _ _).mp h1
          have hr : r.takeWhile isAddrChar ++ r.dropWhile isAddrChar = r :=
            List.takeWhile_append_dropWhile _ _
          have hdw : r.dropWhile isAddrChar = ("] ".toList) ++ tail :=
            (dropLit_eq_some _ _ _).mp h3
          have haddr : ∀ c ∈ r.takeWhile isAddrChar, isAddrChar c = true :=
            fun c hc => List.mem_takeWhile_imp hc
          have hane : r.takeWhile isAddrChar ≠ [] := by
            simpa [List.isEmpty_iff] using h2
          have hr2 : r = r.takeWhile isAddrChar ++ (("] ".toList) ++ tail) := by
            conv_lhs => rw [← hr]
            rw [hdw]
          rcases hm3 with h4 | h4
          · refine ⟨r.takeWhile isAddrChar, [], hane, haddr, hm1, hm2, Or.inl rfl, ?_⟩
            rw [hline]
            conv_lhs => rw [hr2, h4]
            simp [List.append_assoc]
          · refine ⟨r.takeWhile isAddrChar, ['\n'], hane, haddr, hm1, hm2, Or.inr rfl, ?_⟩
            rw [hline]
            conv_lhs => rw [hr2, h4]
            simp [List.append_assoc]
  · rintro ⟨addr, t, ha1, ha2, hm1, hm2, ht, hline⟩
    have h1 : dropLit ("[tcp @ ".toList) line = some (addr ++ (']' :: ' ' :: (msg ++ t))) := by
      rw [dropLit_eq_some, hline]
      simp [List.append_assoc]
    have hrun := takeWhile_append_run isAddrChar addr ']' (' ' :: (msg ++ t)) ha2 (by decide)
    have h3 : dropLit ("] ".toList) (']' :: ' ' :: (msg ++ t)) = some (msg ++ t) := by
      rw [dropLit_eq_some]
      rfl
    simp only [matchTcp, h1, hrun.1, hrun.2, h3]
    rw [if_neg (by simpa [List.isEmpty_iff] using ha1)]
    refine (capLineEnd_eq_some _ _).mpr ⟨hm1, hm2, ?_⟩
    rcases ht with h4 | h4
    · left; rw [h4]; simp
    · right; rw [h4]

theorem matchReset_eq_some (line d1 d2 : List Char) :
    matchReset line = some (d1, d2) ↔ ResetLine line d1 d2 := by
  constructor
  · intro h
    unfold matchReset at h
    cases h1 : dropLit (("[rtsp @ ").toList) line with
    | none => rw [h1] at h; exact absurd h (by simp)
    | some r =>
    simp only [h1] at h
    by_cases h2 : (r.takeWhile isAddrChar).isEmpty
    · rw [if_pos h2] at h; exact absurd h (by simp)
    rw [if_neg h2] at h
    cases h3 : dropLit (("] CSeq ").toList) (r.dropWhile isAddrChar) with
    | none => rw [h3] at h; exact absurd h (by simp)
    | some r2 =>
    simp only [h3] at h
    by_cases h4 : (r2.takeWhile Char.isDigit).isEmpty
    · rw [if_pos h4] at h; exact absurd h (by simp)
    rw [if_neg h4] at h
    cases h5 : dropLit ((" expected, ").toList) (r2.dropWhile Char.isDigit) with
    | none => rw [h5] at h; exact absurd h (by simp)
    | some r4 =>
    simp only [h5] at h
    by_cases h6 : (r4.takeWhile Char.isDigit).isEmpty
    · rw [if_pos h6] at h; exact absurd h (by simp)
    rw [if_neg h6] at h
    cases h7 : dropLit ((" received.").toList) (r4.dropWhile Char.isDigit) with
    | none => rw [h7] at h; exact absurd h (by simp)
    | some r6 =>
    simp only [h7] at h
    by_cases h8 : r6 = [] ∨ r6 = ['\n']
    · rw [if_pos h8] at h
      injection h with h9
      rw [Prod.mk.injEq] at h9
      have hline : line = ("[rtsp @ ".toList) ++ r := (dropLit_eq_some _ _ _).mp h1
      have hrA : r = r.takeWhile isAddrChar ++ (("] CSeq ".toList) ++ r2) := by
        conv_lhs => rw [← List.takeWhile_append_dropWhile isAddrChar r]
        rw [(dropLit_eq_some _ _ _).mp h3]
      have hrB : r2 = r2.takeWhile Char.isDigit ++ ((" expected, ".toList) ++ r4) := by
        conv_lhs => rw [← List.takeWhile_append_dropWhile Char.isDigit r2]
        rw [(dropLit_eq_some _ _ _).mp h5]
      have hrC : r4 = r4.takeWhile Char.isDigit ++ ((" received.".toList) ++ r6) := by
        conv_lhs => rw [← List.takeWhile_append_dropWhile Char.isDigit r4]
        rw [(dropLit_eq_some _ _ _).mp h7]
      refine ⟨r.takeWhile isAddrChar, r6, by simpa [List.isEmpty_iff] using h2,
        fun c hc => List.mem_takeWhile_imp hc,
        by rw [← h9.1]; simpa [List.isEmpty_iff] using h4,
        by rw [← h9.1]; exact fun c hc => List.mem_takeWhile_imp hc,
        by rw [← h9.2]; simpa [List.isEmpty_iff] using h6,
        by rw [← h9.2]; exact fun c hc => List.mem_takeWhile_imp hc,
        h8, ?_⟩
      rw [hline]
      conv_lhs => rw [hrA, hrB, hrC]
      rw [h9.1, h9.2]
      simp [List.append_assoc]
    · rw [if_neg h8] at h; exact absurd h (by simp)
  · rintro ⟨addr, t, ha1, ha2, hd1a, hd1b, hd2a, hd2b, ht, hline⟩
    have h1 : dropLit ("[rtsp @ ".toList) line =
        some (addr ++ ']' :: ((" CSeq ".toList) ++
          (d1 ++ ' ' :: (("expected, ".toList) ++
            (d2 ++ ' ' :: (("received.".toList) ++ t)))))) := by
      rw [dropLit_eq_some, hline]
      simp [List.append_assoc]
    have hrunA := takeWhile_append_run isAddrChar addr ']'
      ((" CSeq ".toList) ++ (d1 ++ ' ' :: (("expected, ".toList) ++
        (d2 ++ ' ' :: (("received.".toList) ++ t))))) ha2 (by decide)
    have h3 : dropLit ("] CSeq ".toList)
        (']' :: ((" CSeq ".toList) ++ (d1 ++ ' ' :: (("expected, ".toList) ++
          (d2 ++ ' ' :: (("received.".toList) ++ t)))))) =
        some (d1 ++ ' ' :: (("expected, ".toList) ++
          (d2 ++ ' ' :: (("received.".toList) ++ t)))) := by
      rw [dropLit_eq_some]; rfl
    have hrunB := takeWhile_append_run Char.isDigit d1 ' '
      (("expected, ".toList) ++ (d2 ++ ' ' :: (("received.".toList) ++ t))) hd1b (by decide)
    have h5 : dropLit (" expected, ".toList)
        (' ' :: (("expected, ".toList) ++ (d2 ++ ' ' :: (("received.".toList) ++ t)))) =
        some (d2 ++ ' ' :: (("received.".toList) ++ t)) := by
      rw [dropLit_eq_some]; rfl
    have hrunC := takeWhile_append_run Char.isDigit d2 ' '
      (("received.".toList) ++ t) hd2b (by decide)
    have h7 : dropLit (" received.".toList) (' ' :: (("received.".toList) ++ t)) = some t := by
      rw [dropLit_eq_some]; rfl
    simp only [matchReset, h1, hrunA.1, hrunA.2, h3, hrunB.1, hrunB.2, h5,
      hrunC.1, hrunC.2, h7]
    rw [if_neg (by simpa [List.isEmpty_iff] using ha1),
        if_neg (by simpa [List.isEmpty_iff] using hd1a),
        if_neg (by simpa [List.isEmpty_iff] using hd2a),
        if_pos ht]

theorem suffix_take_mid (body mid : List Char) (h : body = mid ++ abortSuffixLit) :
    body.take (body.length - abortSuffixLit.length) = mid := by
  subst h
  have hl : (mid ++ abortSuffixLit).length - abortSuffixLit.length = mid.length := by
    simp [List.length_append]
  rw [hl, List.take_left]

theorem abortTail_eq_some (r4 mid : List Char) :
    abortTail r4 = some mid ↔
      '\n' ∉ mid ∧ (r4 = mid ++ abortSuffixLit ∨ r4 = mid ++ abortSuffixLit ++ ['\n']) := by
  unfold abortTail
  have hsufne : abortSuffixLit ≠ [] := by decide
  have hsufLast : abortSuffixLit.getLast? = some 'e' := by decide
  by_cases h : r4.getLast? = some '\n'
  · rw [if_pos h]
    have hs : r4.dropLast ++ ['\n'] = r4 := List.dropLast_append_getLast? '\n' h
    constructor
    · intro h2
      by_cases h3 : abortSuffixLit.isSuffixOf r4.dropLast ∧
          ¬ (r4.dropLast.take (r4.dropLast.length - abortSuffixLit.length)).any
            (fun c => c = '\n')
      · rw [if_pos h3] at h2
        obtain ⟨s, hsuf⟩ := List.isSuffixOf_iff_suffix.mp h3.1
        have hbody : r4.dropLast = s ++ abortSuffixLit := hsuf.symm
        have htake := suffix_take_mid _ _ hbody
        rw [htake] at h2
        injection h2 with h2
        have hnl : '\n' ∉ mid := by
          intro hm
          apply h3.2
          rw [htake, h2]
          simp only [List.any_eq_true, decide_eq_true_eq]
          exact ⟨'\n', hm, rfl⟩
        refine ⟨hnl, Or.inr ?_⟩
        rw [← hs, hbody, h2]
      · rw [if_neg h3] at h2; exact absurd h2 (by simp)
    · rintro ⟨hnl, hb | hb⟩
      · exfalso
        rw [hb, List.getLast?_append_of_ne_nil _ hsufne, hsufLast] at h
        exact absurd h (by decide)
      · have hd : r4.dropLast = mid ++ abortSuffixLit := by
          rw [hb, List.dropLast_concat]
        rw [if_pos ?side]
        case side =>
          constructor
          · exact List.isSuffixOf_iff_suffix.mpr ⟨mid, hd.symm⟩
          · rw [suffix_take_mid _ _ hd]
            simp only [List.any_eq_true, decide_eq_true_eq, not_exists, not_and]
            exact fun c hc hceq => hnl (hceq ▸ hc)
        rw [suffix_take_mid _ _ hd]
  · rw [if_neg h]
    constructor
    · intro h2
      by_cases h3 : abortSuffixLit.isSuffixOf r4 ∧
          ¬ (r4.take (r4.length - abortSuffixLit.length)).any (fun c => c = '\n')
      · rw [if_pos h3] at h2
        obtain ⟨s, hsuf⟩ := List.isSuffixOf_iff_suffix.mp h3.1
        have hbody : r4 = s ++ abortSuffixLit := hsuf.symm
        have htake := suffix_take_mid _ _ hbody
        rw [htake] at h2
        injection h2 with h2
        have hnl : '\n' ∉ mid := by
          intro hm
          apply h3.2
          rw [htake, h2]
          simp only [List.any_eq_true, decide_eq_true_eq]
          exact ⟨'\n', hm, rfl⟩
        refine ⟨hnl, Or.inl ?_⟩
        rw [hbody, h2]
      · rw [if_neg h3] at h2; exact absurd h2 (by simp)
    · rintro ⟨hnl, hb | hb⟩
      · rw [if_pos ?side2]
        case side2 =>
          constructor
          · exact List.isSuffixOf_iff_suffix.mpr ⟨mid, hb.symm⟩
          · rw [suffix_take_mid _ _ hb]
            simp only [List.any_eq_true, decide_eq_true_eq, not_exists, not_and]
            exact fun c hc hceq => hnl (hceq ▸ hc)
        rw [suffix_take_mid _ _ hb]
      · exfalso
        apply h
        rw [hb, List.getLast?_append_of_ne_nil _ (by simp)]
        rfl

theorem matchAbort_eq_some (line m : List Char) :
    matchAbort line = some m ↔
      ∃ d mid, AbortLine line d mid ∧ m = abortMsg d mid := by
  constructor
  · intro h
    unfold matchAbort at h
    cases h1 : dropLit (("[rtsp @ ").toList) line with
    | none => rw [h1] at h; exact absurd h (by simp)
    | some r =>
    simp only [h1] at h
    by_cases h2 : (r.takeWhile isAddrChar).isEmpty
    · rw [if_pos h2] at h; exact absurd h (by simp)
    rw [if_neg h2] at h
    cases h3 : dropLit ((("] ").toList) ++ abortPre) (r.dropWhile isAddrChar) with
    | none => rw [h3] at h; exact absurd h (by simp)
    | some r2 =>
    simp only [h3] at h
    by_cases h4 : (r2.takeWhile Char.isDigit).isEmpty
    · rw [if_pos h4] at h; exact absurd h (by simp)
    rw [if_neg h4] at h
    cases h5 : dropLit ((" (Video: ").toList) (r2.dropWhile Char.isDigit) with
    | none => rw [h5] at h; exact absurd h (by simp)
    | some r4 =>
    simp only [h5] at h
    cases h7 : abortTail r4 with
    | none => rw [h7] at h; exact absurd h (by simp)
    | some mid =>
    simp only [h7] at h
    injection h with h9
    obtain ⟨hnl, hcase⟩ := (abortTail_eq_some r4 mid).mp h7
    have hline : line = ("[rtsp @ ".toList) ++ r := (dropLit_eq_some _ _ _).mp h1
    have hrA : r = r.takeWhile isAddrChar ++ (((("] ").toList) ++ abortPre) ++ r2) := by
      conv_lhs => rw [← List.takeWhile_append_dropWhile isAddrChar r]
      rw [(dropLit_eq_some _ _ _).mp h3]
    have hrB : r2 = r2.takeWhile Char.isDigit ++ (((" (Video: ").toList) ++ r4) := by
      conv_lhs => rw [← List.takeWhile_append_dropWhile Char.isDigit r2]
      rw [(dropLit_eq_some _ _ _).mp h5]
    refine ⟨r2.takeWhile Char.isDigit, mid, ⟨r.takeWhile isAddrChar, ?t, ?_, ?_, ?_, ?_, hnl,
      ?tcase, ?_⟩, h9.symm⟩
    case t => exact if r4 = mid ++ abortSuffixLit then [] else ['\n']
    · simpa [List.isEmpty_iff] using h2
    · exact fun c hc => List.mem_takeWhile_imp hc
    · simpa [List.isEmpty_iff] using h4
    · exact fun c hc => List.mem_takeWhile_imp hc
    case tcase =>
      by_cases hc : r4 = mid ++ abortSuffixLit
      · rw [if_pos hc]; exact Or.inl rfl
      · rw [if_neg hc]; exact Or.inr rfl
    · rw [hline]
      conv_lhs => rw [hrA, hrB]
      rcases hcase with hc | hc
      · rw [if_pos hc]
        conv_lhs => rw [hc]
        simp [List.append_assoc]
      · have hne : ¬ r4 = mid ++ abortSuffixLit := by
          intro heq
          rw [heq] at hc
          have := congrArg List.length hc
          simp [List.length_append] at this
        rw [if_neg hne]
        conv_lhs => rw [hc]
        simp [List.append_assoc]
  · rintro ⟨d, mid, ⟨addr, t, ha1, ha2, hda, hdb, hnl, ht, hline⟩, hm⟩
    have h1 : dropLit ("[rtsp @ ".toList) line =
        some (addr ++ ']' :: ' ' :: (abortPre ++
          (d ++ ' ' :: (("(Video: ".toList) ++ ((mid ++ abortSuffixLit) ++ t))))) := by
      rw [dropLit_eq_some, hline]
      simp [List.append_assoc, abortPre]
    have hrunA := takeWhile_append_run isAddrChar addr ']'
      (' ' :: (abortPre ++ (d ++ ' ' :: (("(Video: ".toList) ++
        ((mid ++ abortSuffixLit) ++ t))))) ha2 (by decide)
    have h3 : dropLit (("] ".toList) ++ abortPre)
        (']' :: ' ' :: (abortPre ++ (d ++ ' ' :: (("(Video: ".toList) ++
          ((mid ++ abortSuffixLit) ++ t))))) =
        some (d ++ ' ' :: (("(Video: ".toList) ++ ((mid ++ abortSuffixLit) ++ t))) := by
      rw [dropLit_eq_some]
      rfl
    have hrunB := takeWhile_append_run Char.isDigit d ' '
      (("(Video: ".toList) ++ ((mid ++ abortSuffixLit) ++ t)) hdb (by decide)
    have h5 : dropLit (" (Video: ".toList)
        (' ' :: (("(Video: ".toList) ++ ((mid ++ abortSuffixLit) ++ t))) =
        some ((mid ++ abortSuffixLit) ++ t) := by
      rw [dropLit_eq_some]
      rfl
    have h7 : abortTail ((mid ++ abortSuffixLit) ++ t) = some mid := by
      rw [abortTail_eq_some]
      refine ⟨hnl, ?_⟩
      rcases ht with hteq | hteq
      · left; rw [hteq]; simp
      · right; rw [hteq]
    simp only [matchAbort, h1, hrunA.1, hrunA.2, h3, hrunB.1, hrunB.2, h5, h7]
    rw [if_neg (by simpa [List.isEmpty_iff] using ha1),
        if_neg (by simpa [List.isEmpty_iff] using hda), hm]
    rfl

theorem run_split_unique (p : Char → Bool) (sep : Char) (hsep : p sep = false) :
    ∀ (xs1 xs2 r1 r2 : List Char),
      (∀ c ∈ xs1, p c = true) → (∀ c ∈ xs2, p c = true) →
      xs1 ++ sep :: r1 = xs2 ++ sep :: r2 → xs1 = xs2 ∧ r1 = r2 := by
  intro xs1
  induction xs1 with
  | nil =>
    intro xs2 r1 r2 _ h2 heq
    cases xs2 with
    | nil =>
      simp only [List.nil_append] at heq
      injection heq with _ h4
      exact ⟨rfl, h4⟩
    | cons y ys =>
      exfalso
      simp only [List.nil_append, List.cons_append] at heq
      injection heq with h3 _
      have hy := h2 y (by simp)
      rw [← h3] at hy
      rw [hy] at hsep
      exact absurd hsep (by simp)
  | cons x xs ih =>
    intro xs2 r1 r2 h1 h2 heq
    cases xs2 with
    | nil =>
      exfalso
      simp only [List.nil_append, List.cons_append] at heq
      injection heq with h3 _
      have hx := h1 x (by simp)
      rw [h3] at hx
      rw [hx] at hsep
      exact absurd hsep (by simp)
    | cons y ys =>
      simp only [List.cons_append] at heq
      injection heq with h3 h4
      obtain ⟨h5, h6⟩ := ih ys r1 r2 (fun c hc => h1 c (by simp [hc]))
        (fun c hc => h2 c (by simp [hc])) h4
      exact ⟨by rw [h3, h5], h6⟩

theorem tcp_rtsp_clash (A B : List Char) :
    ("[tcp @ ".toList) ++ A ≠ ("[rtsp @ ".toList) ++ B := by
  intro h
  injection h with _ h2
  injection h2 with h3 _
  exact absurd h3 (by decide)

theorem reset_abort_clash (line d1 d2 d mid : List Char)
    (hR : ResetLine line d1 d2) (hA : AbortLine line d mid) : False := by
  obtain ⟨a1, t1, _, ha2, _, _, _, _, _, hl1⟩ := hR
  obtain ⟨a2, t2, _, ha2b, _, _, _, _, hl2⟩ := hA
  simp only [List.append_assoc] at hl1 hl2
  rw [hl1] at hl2
  have hE := List.append_cancel_left hl2
  have hE2 : a1 ++ ']' :: ((" CSeq ".toList) ++ (d1 ++ ((" expected, ".toList) ++
      (d2 ++ ((" received.".toList) ++ t1))))) =
      a2 ++ ']' :: (' ' :: (abortPre ++ (d ++ ((" (Video: ".toList) ++
        (mid ++ (abortSuffixLit ++ t2)))))) := hE
  obtain ⟨_, h6⟩ := run_split_unique isAddrChar ']' (by decide) a1 a2 _ _ ha2 ha2b hE2
  injection h6 with _ h7
  injection h7 with _ h8
  injection h8 with h9 _
  exact absurd h9 (by decide)

/-- Claim C4: the stderr-line classifier maps every line to exactly one
error kind.  A line matching `[tcp @ <addr>] <msg>` yields a
`ConnectionRefusedError(EHOSTUNREACH)` carrying `<msg>`; a line matching
`[rtsp @ <addr>] CSeq <n> expected, <m> received.` yields a
`ConnectionResetError(ECONNRESET)`; a line matching the codec-parameter
probe pattern yields a `ConnectionAbortedError(ECONNABORTED)`; and every
other line yields a `RuntimeWarning` carrying the whole line. -/
theorem stderr_classifier_spec (line : List Char) :
    (∀ msg, TcpLine line msg →
        parse_error_msg line = .connectionRefused errnoEhostunreach msg) ∧
    (∀ d1 d2, ResetLine line d1 d2 →
        parse_error_msg line = .connectionReset errnoEconnreset (resetMsg d1 d2)) ∧
    (∀ d mid, AbortLine line d mid →
        parse_error_msg line = .connectionAborted errnoEconnaborted (abortMsg d mid)) ∧
    ((¬ ∃ msg, TcpLine line msg) → (¬ ∃ d1 d2, ResetLine line d1 d2) →
      (¬ ∃ d mid, AbortLine line d mid) →
        parse_error_msg line = .runtimeWarning line) := by
  refine ⟨?_, ?_, ?_, ?_⟩
  · intro msg hT
    unfold parse_error_msg
    rw [(matchTcp_eq_some line msg).mpr hT]
  · intro d1 d2 hR
    have hTn : matchTcp line = none := by
      cases hmt : matchTcp line with
      | none => rfl
      | some m =>
        exfalso
        obtain ⟨a1, t1, _, _, _, _, _, hl1⟩ := (matchTcp_eq_some line m).mp hmt
        obtain ⟨a2, t2, _, _, _, _, _, _, _, hl2⟩ := hR
        simp only [List.append_assoc] at hl1 hl2
        rw [hl1] at hl2
        exact tcp_rtsp_clash _ _ hl2
    unfold parse_error_msg
    rw [hTn, (matchReset_eq_some line d1 d2).mpr hR]
  · intro d mid hA
    have hTn : matchTcp line = none := by
      cases hmt : matchTcp line with
      | none => rfl
      | some m =>
        exfalso
        obtain ⟨a1, t1, _, _, _, _, _, hl1⟩ := (matchTcp_eq_some line m).mp hmt
        obtain ⟨a2, t2, _, _, _, _, _, _, hl2⟩ := hA
        simp only [List.append_assoc] at hl1 hl2
        rw [hl1] at hl2
        exact tcp_rtsp_clash _ _ hl2
    have hRn : matchReset line = none := by
      cases hmr : matchReset line with
      | none => rfl
      | some pr =>
        exfalso
        obtain ⟨pd1, pd2⟩ := pr
        exact reset_abort_clash line pd1 pd2 d mid
          ((matchReset_eq_some line pd1 pd2).mp hmr) hA
    unfold parse_error_msg
    rw [hTn, hRn, (matchAbort_eq_some line (abortMsg d mid)).mpr ⟨d, mid, hA, rfl⟩]
  · intro hT hR hA
    have hTn : matchTcp line = none := by
      cases hmt : matchTcp line with
      | none => rfl
      | some m => exact absurd ⟨m, (matchTcp_eq_some line m).mp hmt⟩ hT
    have hRn : matchReset line = none := by
      cases hmr : matchReset line with
      | none => rfl
      | some pr =>
        obtain ⟨pd1, pd2⟩ := pr
        exact absurd ⟨pd1, pd2, (matchReset_eq_some line pd1 pd2).mp hmr⟩ hR
    have hAn : matchAbort line = none := by
      cases hma : matchAbort line with
      | none => rfl
      | some m =>
        obtain ⟨d, mid, hAb, _⟩ := (matchAbort_eq_some line m).mp hma
        exact absurd ⟨d, mid, hAb⟩ hA
    unfold parse_error_msg
    rw [hTn, hRn, hAn]

/-- Witness for claim C4: a concrete tcp error line is classified as
connection-refused with its message, and a pattern-free line as a warning. -/
theorem stderr_classifier_spec_witness :
    parse_error_msg (("[tcp @ 0ab] boom").toList) =
      .connectionRefused errnoEhostunreach (("boom").toList) ∧
    parse_error_msg (("hello").toList) = .runtimeWarning (("hello").toList) := by
  constructor
  · exact (stderr_classifier_spec _).1 (("boom").toList)
      ⟨("0ab").toList, [], by decide, by decide, by decide, by decide, Or.inl rfl, by decide⟩
  · refine (stderr_classifier_spec _).2.2.2 ?_ ?_ ?_
    · rintro ⟨msg, addr, t, -, -, -, -, -, h⟩
      injection h with h1 _
      exact absurd h1 (by decide)
    · rintro ⟨d1, d2, addr, t, -, -, -, -, -, -, -, h⟩
      injection h with h1 _
      exact absurd h1 (by decide)
    · rintro ⟨d, mid, addr, t, -, -, -, -, -, -, h⟩
      injection h with h1 _
      exact absurd h1 (by decide)

/-! placeholder13 -/
